import Mathlib

/-!
A shallow embedding of the email autoconfig resolver in `src/autoconfig.py`,
together with proofs about its behavior.  Python functions are translated to
executable Lean definitions; the pieces of the standard library and of the
`untangle` XML layer that the source calls are modelled explicitly where their
observable behavior matters (netloc extraction of `urllib.parse.urlsplit`,
`int()` on strings, `str.lower`, `str.join`, attribute and child access on
parsed XML elements).
-/

/-! ## Definitions: URL normalization (fix_url, lines 40-45) -/

/-- Model of the character walk behind Python str.startswith: does the first
list occur as an initial segment of the second? -/
def strHasPre : List Char → List Char → Bool
  | [], _ => true
  | _ :: _, [] => false
  | p :: ps, c :: cs => p == c && strHasPre ps cs

/-- Python str.startswith as used by fix_url (line 43 of autoconfig.py). -/
def pyStartswith (s pat : String) : Bool := strHasPre pat.data s.data

/-- Characters that urllib.parse.urlsplit removes from the whole URL before
splitting it (tab, carriage return, line feed). -/
def isRemovedUrlChar (c : Char) : Bool := c == '\t' || c == '\r' || c == '\n'

/-- Characters other than the three that terminate the network-location
component of a URL. -/
def notDelim (c : Char) : Bool := !(c == '/' || c == '?' || c == '#')

/-- The mismatched-square-bracket test on the netloc that makes urlsplit
raise ValueError ("Invalid IPv6 URL"). -/
def bracketCheck (l : List Char) : Bool :=
  (l.contains '[' && !(l.contains ']')) || (l.contains ']' && !(l.contains '['))

/-- Model of urllib.parse.urlsplit(u).netloc for a URL u that begins with the
scheme "http://" or "https://" (the only inputs fix_url feeds it): remove
tab/CR/LF everywhere, skip the scheme and the "//", and keep characters up to
the first '/', '?' or '#'.  The value none models the ValueError raised on a
netloc with mismatched square brackets.  (The leading C0-control strip is a
no-op on these inputs, and the newer bracketed-host validation of recent
CPython is abstracted away; no claim exercises bracketed hosts.) -/
def urlsplitNetloc (u : String) : Option String :=
  let t := u.data.filter (fun c => !isRemovedUrlChar c)
  let body := if strHasPre "https://".data t then t.drop 8 else t.drop 7
  let netloc := body.takeWhile notDelim
  if bracketCheck netloc then none else some (String.mk netloc)

/-- ClientConfig.fix_url (lines 40-45): add "http://" to the domain when no
scheme is present, then return the netloc of the parsed URL.  none models a
ValueError escaping urlsplit. -/
def fix_url (domain : String) : Option String :=
  let d :=
    if pyStartswith domain "http://" || pyStartswith domain "https://" then domain
    else "http://" ++ domain
  urlsplitNetloc d

/-! ## Definitions: records and protocol lookup (lines 7-16, 69-78) -/

/-- ServerConfig (lines 7-16): one mail server endpoint.  The protocol field
is an Option because the source copies it from the XML attribute read
attr["type"], which yields Python None when the attribute is absent. -/
structure ServerConfig where
  protocol : Option String
  hostname : String
  port : Int
  socket_type : String
  authentication : String
  username : String
deriving DecidableEq

/-- Model of the ASCII case mapping of Python str.lower on one character. -/
def pyLowerChar (c : Char) : Char :=
  if 65 ≤ c.toNat ∧ c.toNat ≤ 90 then Char.ofNat (c.toNat + 32) else c

/-- Model of Python str.lower as used by _get_config (line 72). -/
def pyLower (s : String) : String := String.mk (s.data.map pyLowerChar)

/-- An ASCII uppercase letter. -/
def isAsciiUpper (c : Char) : Bool := decide (65 ≤ c.toNat ∧ c.toNat ≤ 90)

/-- The loop of ClientConfig._get_config (lines 69-73): return the first
config whose protocol field equals the (already lowercased) query, falling
off the loop with Python None when no entry matches. -/
def getConfigLoop (target : String) : List ServerConfig → Option ServerConfig
  | [] => none
  | c :: rest => if c.protocol = some target then some c else getConfigLoop target rest

/-- ClientConfig._get_config: search the configs list for a protocol; the
query is lowercased, the stored field is compared verbatim. -/
def _get_config (configs : List ServerConfig) (protocol : String) : Option ServerConfig :=
  getConfigLoop (pyLower protocol) configs

/-- The case-insensitive matching relation that claim C1 describes (this is
the specification reading, not the code: the code lowercases only the query). -/
def ciMatches (c : ServerConfig) (p : String) : Bool :=
  decide (c.protocol.map pyLower = some (pyLower p))

/-! ## Definitions: Python int() on strings (line 62) -/

/-- Numeric value of an ASCII digit. -/
def digitVal (c : Char) : Nat := c.toNat - 48

/-- Digit run of Python int() after the first digit: digits with single
underscores allowed between digits. -/
def pyDigitsAux : List Char → Nat → Option Nat
  | [], acc => some acc
  | c :: rest, acc =>
    if c.isDigit then pyDigitsAux rest (acc * 10 + digitVal c)
    else if c = '_' then
      match rest with
      | [] => none
      | d :: rest2 => if d.isDigit then pyDigitsAux rest2 (acc * 10 + digitVal d) else none
    else none

/-- Digit run of Python int(): must begin with a digit. -/
def pyDigitsStart : List Char → Option Nat
  | [] => none
  | c :: rest => if c.isDigit then pyDigitsAux rest (digitVal c) else none

/-- ASCII whitespace stripped by Python int(). -/
def isPySpace (c : Char) : Bool :=
  c == ' ' || c == '\t' || c == '\n' || c == '\r' || c == '\x0b' || c == '\x0c'

/-- Strip whitespace from both ends. -/
def pyStripWs (l : List Char) : List Char :=
  ((l.dropWhile isPySpace).reverse.dropWhile isPySpace).reverse

/-- Model of Python int(s) for a decimal string: optional surrounding
whitespace, optional sign, digits with single underscores between digits.
none models the ValueError raised on any other input. -/
def pyInt (s : String) : Option Int :=
  match pyStripWs s.data with
  | '+' :: rest => (pyDigitsStart rest).map (fun n => (n : Int))
  | '-' :: rest => (pyDigitsStart rest).map (fun n => -(n : Int))
  | l => (pyDigitsStart l).map (fun n => (n : Int))

/-! ## Definitions: the parsed XML document and parse_config (lines 54-67)

The source reads the fetched text through untangle.  An untangle element
access `elem.child` raises AttributeError when no child of that name exists,
while an attribute access `elem["name"]` returns Python None when the
attribute is absent.  The document model below records, for each server
element, its type attribute and the cdata of each expected child; a missing
child is none. -/

/-- One incomingServer or outgoingServer element of the document. -/
structure ServerElem where
  typeAttr : Option String
  hostname : Option String
  port : Option String
  socketType : Option String
  authentication : Option String
  username : Option String
deriving DecidableEq

/-- The emailProvider element: its id attribute and its server children in
document order. -/
structure EmailProviderElem where
  idAttr : Option String
  incomingServer : List ServerElem
  outgoingServer : List ServerElem
deriving DecidableEq

/-- The clientConfig element; none for emailProvider models the untangle
AttributeError raised when the child is absent. -/
structure ClientConfigElem where
  emailProvider : Option EmailProviderElem
deriving DecidableEq

/-- The parsed document root; none for clientConfig models the untangle
AttributeError raised when the child is absent. -/
structure XmlRootElem where
  clientConfig : Option ClientConfigElem
deriving DecidableEq

/-- Outcome of untangle.parse on the fetched text: either the document does
not parse (any exception escaping untangle.parse, e.g. SAXParseException on
ill-formed XML) or it yields a root element. -/
inductive XmlOutcome where
  | malformed
  | parsed (root : XmlRootElem)
deriving DecidableEq

/-- The exceptions that can escape parse_config. -/
inductive PErr where
  | saxParseErr
  | attrErr
  | intErr
deriving DecidableEq

/-- The body of the loop of parse_config (lines 61-66) for one server
element: read the type attribute (None when absent, no error), the hostname,
port, socketType, authentication and username children (AttributeError when
absent), and convert the port text with int() (ValueError when not numeric),
in the evaluation order of the source. -/
def parseServer (e : ServerElem) : Except PErr ServerConfig :=
  match e.hostname with
  | none => Except.error PErr.attrErr
  | some hn =>
    match e.port with
    | none => Except.error PErr.attrErr
    | some ps =>
      match pyInt ps with
      | none => Except.error PErr.intErr
      | some pt =>
        match e.socketType with
        | none => Except.error PErr.attrErr
        | some st =>
          match e.authentication with
          | none => Except.error PErr.attrErr
          | some au =>
            match e.username with
            | none => Except.error PErr.attrErr
            | some un =>
              Except.ok { protocol := e.typeAttr, hostname := hn, port := pt,
                          socket_type := st, authentication := au, username := un }

/-- The loop of parse_config over one list of server elements, appending the
produced ServerConfig records in document order and aborting at the first
failing element. -/
def parseServers : List ServerElem → Except PErr (List ServerConfig)
  | [] => Except.ok []
  | e :: rest =>
    match parseServer e with
    | Except.error err => Except.error err
    | Except.ok c =>
      match parseServers rest with
      | Except.error err => Except.error err
      | Except.ok cs => Except.ok (c :: cs)

/-- ClientConfig.parse_config (lines 54-67): parse the document, read the
provider id attribute, then walk the incomingServer elements followed by the
outgoingServer elements.  The tuple (root.incomingServer, root.outgoingServer)
on line 60 is built before the loop runs, and untangle raises AttributeError
when either set of children is empty, so the emptiness test comes first. -/
def parse_config (x : XmlOutcome) : Except PErr (Option String × List ServerConfig) :=
  match x with
  | XmlOutcome.malformed => Except.error PErr.saxParseErr
  | XmlOutcome.parsed root =>
    match root.clientConfig with
    | none => Except.error PErr.attrErr
    | some cc =>
      match cc.emailProvider with
      | none => Except.error PErr.attrErr
      | some ep =>
        if ep.incomingServer.isEmpty || ep.outgoingServer.isEmpty then
          Except.error PErr.attrErr
        else
          match parseServers ep.incomingServer with
          | Except.error e => Except.error e
          | Except.ok inc =>
            match parseServers ep.outgoingServer with
            | Except.error e => Except.error e
            | Except.ok outg => Except.ok (ep.idAttr, inc ++ outg)

/-! ## Definitions: request URL, fetch and the resolver (lines 26-38, 47-52, 75-90) -/

/-- The rendering of the class constant VERSION = 1.1 inside the f-string of
line 29. -/
def VERSION_STR : String := "1.1"

/-- ClientConfig.DATABASE_URL (line 29). -/
def DATABASE_URL : String := "https://autoconfig.thunderbird.net/v" ++ VERSION_STR

/-- Model of Python str.join on a list of strings. -/
def pyJoin (sep : String) : List String → String
  | [] => ""
  | [s] => s
  | s :: rest => s ++ sep ++ pyJoin sep rest

/-- The request URL built on line 49: "/".join((DATABASE_URL, domain)). -/
def config_url (domain : String) : String := pyJoin "/" [DATABASE_URL, domain]

/-- The HTTP response the database endpoint gives for one request: its
success flag (response.ok) and its body text (response.text). -/
structure HttpResponse where
  ok : Bool
  body : String
deriving DecidableEq

/-- ClientConfig.request_config (lines 47-52): return the body text on a
success status and Python None on any non-success status. -/
def request_config (resp : HttpResponse) : Option String :=
  if resp.ok then some resp.body else none

/-- ClientConfig (lines 26-38): the resolution result. -/
structure ClientConfig where
  domain : String
  xml : String
  emailProvider : Option String
  configs : List ServerConfig
deriving DecidableEq

/-- The exceptions that can escape ClientConfig construction. -/
inductive ResolveErr where
  | valueErr
  | notFound
  | parseFailed (e : PErr)
deriving DecidableEq

/-- ClientConfig.__init__ (lines 31-38): normalize the domain, fetch the
document (the response the endpoint would give is passed explicitly, and the
XML parser is abstracted as a function from body text to parse outcome),
raise the not-found Exception when the fetched value is falsy (None on a
non-success status, or an empty body), then parse.  The configs field is
assigned only after parse_config returns, so a parse failure yields no
object. -/
def resolveModel (xmlOf : String → XmlOutcome) (resp : HttpResponse) (domain : String) :
    Except ResolveErr ClientConfig :=
  match fix_url domain with
  | none => Except.error ResolveErr.valueErr
  | some d =>
    match request_config resp with
    | none => Except.error ResolveErr.notFound
    | some t =>
      if t = "" then Except.error ResolveErr.notFound
      else
        match parse_config (xmlOf t) with
        | Except.error e => Except.error (ResolveErr.parseFailed e)
        | Except.ok (pid, cfgs) =>
          Except.ok { domain := d, xml := t, emailProvider := pid, configs := cfgs }

/-- ClientConfig._get_configs (lines 88-90): return the configs list. -/
def _get_configs (cc : ClientConfig) : List ServerConfig := cc.configs

/-- Classmethod ClientConfig.get_configs (lines 83-86): resolve, then return
all configs. -/
def get_configs (xmlOf : String → XmlOutcome) (resp : HttpResponse) (domain : String) :
    Except ResolveErr (List ServerConfig) :=
  (resolveModel xmlOf resp domain).map _get_configs

/-- Classmethod ClientConfig.get_config (lines 75-78): resolve, then search
for a protocol. -/
def get_config (xmlOf : String → XmlOutcome) (resp : HttpResponse)
    (domain protocol : String) : Except ResolveErr (Option ServerConfig) :=
  (resolveModel xmlOf resp domain).map (fun cc => _get_config cc.configs protocol)

/-! ## Definitions: concrete documents and records used by witnesses and
counterexamples -/

/-- A ServerConfig whose stored protocol contains uppercase letters; the
parse stage can produce such an entry, since it copies the type attribute of
the document verbatim. -/
def cfgUpper : ServerConfig :=
  { protocol := some "IMAP", hostname := "imap.example.com", port := 993,
    socket_type := "ssl", authentication := "password-cleartext",
    username := "%EMAILADDRESS%" }

/-- First of two entries with protocol "imap". -/
def cfgImapA : ServerConfig :=
  { protocol := some "imap", hostname := "imap1.example.com", port := 993,
    socket_type := "ssl", authentication := "password-cleartext",
    username := "%EMAILADDRESS%" }

/-- Second of two entries with protocol "imap". -/
def cfgImapB : ServerConfig :=
  { protocol := some "imap", hostname := "imap2.example.com", port := 143,
    socket_type := "starttls", authentication := "password-cleartext",
    username := "%EMAILADDRESS%" }

/-- A complete incoming IMAP server element. -/
def srvIncoming : ServerElem :=
  { typeAttr := some "imap", hostname := some "imap.example.com", port := some "993",
    socketType := some "ssl", authentication := some "password-cleartext",
    username := some "%EMAILADDRESS%" }

/-- A complete outgoing SMTP server element. -/
def srvOutgoing : ServerElem :=
  { typeAttr := some "smtp", hostname := some "smtp.example.com", port := some "587",
    socketType := some "starttls", authentication := some "password-cleartext",
    username := some "%EMAILADDRESS%" }

/-- The ServerConfig produced from srvIncoming. -/
def cfgIncoming : ServerConfig :=
  { protocol := some "imap", hostname := "imap.example.com", port := 993,
    socket_type := "ssl", authentication := "password-cleartext",
    username := "%EMAILADDRESS%" }

/-- The ServerConfig produced from srvOutgoing. -/
def cfgOutgoing : ServerConfig :=
  { protocol := some "smtp", hostname := "smtp.example.com", port := 587,
    socket_type := "starttls", authentication := "password-cleartext",
    username := "%EMAILADDRESS%" }

/-- A well-formed provider with one incoming and one outgoing server. -/
def providerOk : EmailProviderElem :=
  { idAttr := some "example.com", incomingServer := [srvIncoming],
    outgoingServer := [srvOutgoing] }

/-- The root of the well-formed document. -/
def rootOk : XmlRootElem := { clientConfig := some { emailProvider := some providerOk } }

/-- An XML layer that parses every body to the well-formed document. -/
def oracleOk : String → XmlOutcome := fun _ => XmlOutcome.parsed rootOk

/-- A provider with no incoming server elements and one outgoing one. -/
def providerNoIncoming : EmailProviderElem :=
  { idAttr := some "example.com", incomingServer := [], outgoingServer := [srvOutgoing] }

/-- The root of the document with no incoming servers. -/
def rootNoIncoming : XmlRootElem :=
  { clientConfig := some { emailProvider := some providerNoIncoming } }

/-- An incoming server element whose type attribute is absent but whose
child elements are all present. -/
def srvNoType : ServerElem :=
  { typeAttr := none, hostname := some "imap.example.com", port := some "993",
    socketType := some "ssl", authentication := some "password-cleartext",
    username := some "%EMAILADDRESS%" }

/-- A provider whose incoming server lacks the type attribute. -/
def providerNoType : EmailProviderElem :=
  { idAttr := some "example.com", incomingServer := [srvNoType],
    outgoingServer := [srvOutgoing] }

/-- The root of the document whose incoming server lacks the type attribute. -/
def rootNoType : XmlRootElem :=
  { clientConfig := some { emailProvider := some providerNoType } }

/-! ## Helper lemmas -/

section ListFacts

variable {α : Type} (p : α → Bool)

lemma mem_takeWhile_facts : ∀ {l : List α} {a : α}, a ∈ l.takeWhile p → p a = true ∧ a ∈ l := by
  intro l
  induction l with
  | nil => intro a h; simp [List.takeWhile] at h
  | cons x xs ih =>
    intro a h
    simp only [List.takeWhile] at h
    cases hx : p x with
    | false => rw [hx] at h; simp at h
    | true =>
      rw [hx] at h
      rcases List.mem_cons.mp h with h1 | h2
      · subst h1; exact ⟨hx, List.mem_cons_self _ _⟩
      · exact ⟨(ih h2).1, List.mem_cons_of_mem _ (ih h2).2⟩

lemma takeWhile_all_eq : ∀ {l : List α}, (∀ a ∈ l, p a = true) → l.takeWhile p = l := by
  intro l
  induction l with
  | nil => intro _; rfl
  | cons x xs ih =>
    intro h
    simp only [List.takeWhile]
    rw [h x (List.mem_cons_self _ _)]
    simp [ih fun a ha => h a (List.mem_cons_of_mem _ ha)]

lemma filter_all_eq : ∀ {l : List α}, (∀ a ∈ l, p a = true) → l.filter p = l := by
  intro l
  induction l with
  | nil => intro _; rfl
  | cons x xs ih =>
    intro h
    rw [List.filter_cons]
    rw [h x (List.mem_cons_self _ _)]
    simp [ih fun a ha => h a (List.mem_cons_of_mem _ ha)]

lemma mem_of_mem_drop : ∀ {k : Nat} {l : List α} {a : α}, a ∈ l.drop k → a ∈ l := by
  intro k
  induction k with
  | zero => intro l a h; simpa using h
  | succ n ih =>
    intro l a h
    cases l with
    | nil => simp at h
    | cons x xs => exact List.mem_cons_of_mem _ (ih h)

lemma isEmpty_false_of_ne_nil {l : List α} (h : l ≠ []) : l.isEmpty = false := by
  cases l with
  | nil => exact absurd rfl h
  | cons x xs => rfl

lemma ne_nil_of_isEmpty_false {l : List α} (h : l.isEmpty = false) : l ≠ [] := by
  cases l with
  | nil => simp [List.isEmpty] at h
  | cons x xs => simp

end ListFacts

lemma strHasPre_mem : ∀ {pat l : List Char}, strHasPre pat l = true → ∀ c ∈ pat, c ∈ l := by
  intro pat
  induction pat with
  | nil => intro l _ c hc; simp at hc
  | cons x xs ih =>
    intro l h c hc
    cases l with
    | nil => simp [strHasPre] at h
    | cons y ys =>
      simp only [strHasPre, Bool.and_eq_true, beq_iff_eq] at h
      rcases List.mem_cons.mp hc with h1 | h2
      · subst h1; rw [h.1]; exact List.mem_cons_self _ _
      · exact List.mem_cons_of_mem _ (ih h.2 c h2)

/-- Every string produced by a successful fix_url consists of characters that
are not netloc delimiters, are not characters urlsplit strips, and pass the
bracket test. -/
lemma fix_url_some_props {x n : String} (h : fix_url x = some n) :
    (∀ c ∈ n.data, notDelim c = true) ∧
    (∀ c ∈ n.data, isRemovedUrlChar c = false) ∧
    bracketCheck n.data = false := by
  unfold fix_url urlsplitNetloc at h
  set d := if pyStartswith x "http://" || pyStartswith x "https://" then x
           else "http://" ++ x with hd
  set t := d.data.filter (fun c => !isRemovedUrlChar c) with ht
  set body := if strHasPre "https://".data t then t.drop 8 else t.drop 7 with hb
  set netloc := body.takeWhile notDelim with hn
  by_cases hbr : bracketCheck netloc = true
  · rw [if_pos hbr] at h; exact absurd h (by simp)
  · rw [if_neg hbr] at h
    have hnd : n.data = netloc := by
      have := Option.some.inj h
      subst this
      rfl
    refine ⟨?_, ?_, ?_⟩
    · intro c hc
      rw [hnd] at hc
      exact (mem_takeWhile_facts _ hc).1
    · intro c hc
      rw [hnd] at hc
      have hcb : c ∈ body := (mem_takeWhile_facts _ hc).2
      have hct : c ∈ t := by
        rw [hb] at hcb
        by_cases h8 : strHasPre "https://".data t = true
        · rw [if_pos h8] at hcb; exact mem_of_mem_drop hcb
        · rw [if_neg h8] at hcb; exact mem_of_mem_drop hcb
      rw [ht] at hct
      have := List.of_mem_filter hct
      simpa using this
    · rw [hnd]
      exact Bool.eq_false_iff.mpr hbr

/-- A string with none of the delimiter characters and none of the stripped
characters, passing the bracket test, is a fixed point of fix_url. -/
lemma fix_url_fixpoint {n : String}
    (h1 : ∀ c ∈ n.data, notDelim c = true)
    (h2 : ∀ c ∈ n.data, isRemovedUrlChar c = false)
    (h3 : bracketCheck n.data = false) :
    fix_url n = some n := by
  obtain ⟨l⟩ := n
  simp only [String.data] at h1 h2 h3
  have hslash : ('/' : Char) ∉ l := by
    intro hmem
    have := h1 '/' hmem
    simp [notDelim] at this
  have hp1 : pyStartswith ⟨l⟩ "http://" = false := by
    by_contra hcon
    have htrue : strHasPre "http://".data l = true := by
      revert hcon
      unfold pyStartswith
      cases strHasPre "http://".data l <;> simp
    exact hslash (strHasPre_mem htrue '/' (by decide))
  have hp2 : pyStartswith ⟨l⟩ "https://" = false := by
    by_contra hcon
    have htrue : strHasPre "https://".data l = true := by
      revert hcon
      unfold pyStartswith
      cases strHasPre "https://".data l <;> simp
    exact hslash (strHasPre_mem htrue '/' (by decide))
  have hdata : ("http://" ++ (⟨l⟩ : String)).data = "http://".data ++ l := rfl
  have hfilter : ("http://" ++ (⟨l⟩ : String)).data.filter (fun c => !isRemovedUrlChar c)
      = "http://".data ++ l := by
    rw [hdata, List.filter_append]
    have hconst : "http://".data.filter (fun c => !isRemovedUrlChar c) = "http://".data := by
      decide
    rw [hconst, filter_all_eq]
    intro a ha
    rw [h2 a ha]
    rfl
  have hkey : urlsplitNetloc ("http://" ++ (⟨l⟩ : String)) = some (⟨l⟩ : String) := by
    simp only [urlsplitNetloc]
    rw [hfilter]
    have hhttps : strHasPre "https://".data ("http://".data ++ l) = false := rfl
    rw [hhttps]
    have hdrop : List.drop 7 ("http://".data ++ l) = l := rfl
    simp only [Bool.false_eq_true, if_false, hdrop]
    rw [takeWhile_all_eq _ h1, h3]
    simp
  simp only [fix_url]
  rw [hp1, hp2]
  simpa using hkey

lemma getConfigLoop_some {target : String} :
    ∀ {cfgs : List ServerConfig} {c : ServerConfig}, getConfigLoop target cfgs = some c →
      c.protocol = some target ∧
      ∃ l1 l2, cfgs = l1 ++ c :: l2 ∧ ∀ c' ∈ l1, c'.protocol ≠ some target := by
  intro cfgs
  induction cfgs with
  | nil => intro c h; simp [getConfigLoop] at h
  | cons c0 rest ih =>
    intro c h
    simp only [getConfigLoop] at h
    by_cases h0 : c0.protocol = some target
    · rw [if_pos h0] at h
      have hc : c0 = c := Option.some.inj h
      subst hc
      exact ⟨h0, [], rest, rfl, by intro c' hc'; simp at hc'⟩
    · rw [if_neg h0] at h
      obtain ⟨hproto, l1, l2, heq, hnone⟩ := ih h
      refine ⟨hproto, c0 :: l1, l2, by rw [heq]; rfl, ?_⟩
      intro c' hc'
      rcases List.mem_cons.mp hc' with h1 | h2
      · subst h1; exact h0
      · exact hnone c' h2

lemma getConfigLoop_none {target : String} :
    ∀ {cfgs : List ServerConfig}, getConfigLoop target cfgs = none →
      ∀ c ∈ cfgs, c.protocol ≠ some target := by
  intro cfgs
  induction cfgs with
  | nil => intro _ c hc; simp at hc
  | cons c0 rest ih =>
    intro h c hc
    simp only [getConfigLoop] at h
    by_cases h0 : c0.protocol = some target
    · rw [if_pos h0] at h; simp at h
    · rw [if_neg h0] at h
      rcases List.mem_cons.mp hc with h1 | h2
      · subst h1; exact h0
      · exact ih h c h2

lemma isAsciiUpper_pyLowerChar (c : Char) : isAsciiUpper (pyLowerChar c) = false := by
  unfold pyLowerChar
  by_cases h : 65 ≤ c.toNat ∧ c.toNat ≤ 90
  · rw [if_pos h]
    obtain ⟨h1, h2⟩ := h
    generalize hn : c.toNat = n at h1 h2
    interval_cases n <;> decide
  · rw [if_neg h]
    unfold isAsciiUpper
    exact decide_eq_false h

lemma pyLower_no_upper (s : String) : ∀ c ∈ (pyLower s).data, isAsciiUpper c = false := by
  intro c hc
  simp only [pyLower] at hc
  obtain ⟨a, _, ha⟩ := List.mem_map.mp hc
  rw [← ha]
  exact isAsciiUpper_pyLowerChar a

lemma parseServers_ok_length : ∀ {l : List ServerElem} {cs : List ServerConfig},
    parseServers l = Except.ok cs → cs.length = l.length := by
  intro l
  induction l with
  | nil =>
    intro cs h
    simp only [parseServers, Except.ok.injEq] at h
    rw [← h]
    rfl
  | cons e rest ih =>
    intro cs h
    simp only [parseServers] at h
    cases hps : parseServer e with
    | error err => rw [hps] at h; exact absurd h (by simp)
    | ok c =>
      rw [hps] at h
      cases hrest : parseServers rest with
      | error err => rw [hrest] at h; exact absurd h (by simp)
      | ok cs2 =>
        rw [hrest] at h
        simp only [Except.ok.injEq] at h
        rw [← h]
        simp [ih hrest]

lemma parseServers_ok_all : ∀ {l : List ServerElem} {cs : List ServerConfig},
    parseServers l = Except.ok cs → ∀ e ∈ l, ∃ c, parseServer e = Except.ok c := by
  intro l
  induction l with
  | nil => intro cs _ e he; simp at he
  | cons e0 rest ih =>
    intro cs h e he
    simp only [parseServers] at h
    cases hps : parseServer e0 with
    | error err => rw [hps] at h; exact absurd h (by simp)
    | ok c =>
      rw [hps] at h
      cases hrest : parseServers rest with
      | error err => rw [hrest] at h; exact absurd h (by simp)
      | ok cs2 =>
        rcases List.mem_cons.mp he with h1 | h2
        · subst h1; exact ⟨c, hps⟩
        · exact ih hrest e h2

lemma parseServer_ok_fields {e : ServerElem} {c : ServerConfig}
    (h : parseServer e = Except.ok c) :
    e.hostname ≠ none ∧ e.socketType ≠ none ∧ e.authentication ≠ none ∧
    e.username ≠ none ∧ ∃ ps, e.port = some ps ∧ pyInt ps ≠ none := by
  unfold parseServer at h
  split at h
  · exact absurd h (by simp)
  · rename_i hn hh
    split at h
    · exact absurd h (by simp)
    · rename_i ps hp
      split at h
      · exact absurd h (by simp)
      · rename_i pt hpi
        split at h
        · exact absurd h (by simp)
        · rename_i st hs
          split at h
          · exact absurd h (by simp)
          · rename_i au ha
            split at h
            · exact absurd h (by simp)
            · rename_i un hu
              exact ⟨by simp [hh], by simp [hs], by simp [ha], by simp [hu],
                     ps, hp, by simp [hpi]⟩

/-! ## Claim theorems -/

/-- Claim C5: normalize is idempotent.  Composing fix_url with itself (with
error propagation, modelling the ValueError that urlsplit can raise) gives
back exactly fix_url: whenever fix_url returns a netloc, running fix_url on
that netloc returns it unchanged, and a failing input keeps failing. -/
theorem fix_url_idempotent (x : String) : (fix_url x).bind fix_url = fix_url x := by
  cases hx : fix_url x with
  | none => rfl
  | some n =>
    obtain ⟨hA, hB, hC⟩ := fix_url_some_props hx
    simpa using fix_url_fixpoint hA hB hC

/-- Claim C6: normalize maps both a bare domain and a full URL with a scheme
and a path to the bare network-location component. -/
theorem fix_url_examples :
    fix_url "example.com" = some "example.com" ∧
    fix_url "http://example.com/path" = some "example.com" := by
  constructor
  · decide
  · decide

/-- Claim C10: every value returned by normalize is a pure network-location
component: it contains no '/', '?' or '#', it does not begin with an
"http://" or "https://" scheme, and the empty string maps to itself. -/
theorem fix_url_netloc_shape :
    (∀ x n, fix_url x = some n →
      (∀ c ∈ n.data, c ≠ '/' ∧ c ≠ '?' ∧ c ≠ '#') ∧
      pyStartswith n "http://" = false ∧
      pyStartswith n "https://" = false) ∧
    fix_url "" = some "" := by
  constructor
  · intro x n h
    obtain ⟨hA, _, _⟩ := fix_url_some_props h
    have hnd : ∀ c ∈ n.data, c ≠ '/' ∧ c ≠ '?' ∧ c ≠ '#' := by
      intro c hc
      have hdl := hA c hc
      simp only [notDelim, Bool.not_eq_true', Bool.or_eq_false_iff, beq_eq_false_iff_ne] at hdl
      exact ⟨hdl.1.1, hdl.1.2, hdl.2⟩
    have hslash : ('/' : Char) ∉ n.data := fun hmem => (hnd '/' hmem).1 rfl
    refine ⟨hnd, ?_, ?_⟩
    · by_contra hcon
      have htrue : strHasPre "http://".data n.data = true := by
        revert hcon
        unfold pyStartswith
        cases strHasPre "http://".data n.data <;> simp
      exact hslash (strHasPre_mem htrue '/' (by decide))
    · by_contra hcon
      have htrue : strHasPre "https://".data n.data = true := by
        revert hcon
        unfold pyStartswith
        cases strHasPre "https://".data n.data <;> simp
      exact hslash (strHasPre_mem htrue '/' (by decide))
  · decide

/-- Witness for C10 at a concrete input: the netloc extracted from a URL with
path, query and fragment carries no scheme. -/
theorem fix_url_netloc_shape_witness :
    pyStartswith "example.com" "http://" = false :=
  ((fix_url_netloc_shape.1 "http://example.com/path?q=1#frag" "example.com" (by decide)).2).1

/-- Counterexample to claim C1 as stated: a stored protocol "IMAP" matches
the query "imap" (and the query "IMAP") case-insensitively, yet the lookup
scan returns absent for both queries, because only the query is lowercased. -/
theorem get_config_not_case_insensitive :
    ciMatches cfgUpper "imap" = true ∧ ciMatches cfgUpper "IMAP" = true ∧
    _get_config [cfgUpper] "imap" = none ∧ _get_config [cfgUpper] "IMAP" = none := by
  refine ⟨by decide, by decide, by decide, by decide⟩

/-- Claim C1 as amended: lookup performs a linear scan in document order and
returns the first entry whose protocol field equals the lowercased query
exactly, or absent when no entry is equal to it; with several equal entries
the first in document order wins. -/
theorem get_config_first_match (cfgs : List ServerConfig) (p : String) :
    (∀ c, _get_config cfgs p = some c →
      c.protocol = some (pyLower p) ∧
      ∃ l1 l2, cfgs = l1 ++ c :: l2 ∧ ∀ c' ∈ l1, c'.protocol ≠ some (pyLower p)) ∧
    (_get_config cfgs p = none → ∀ c ∈ cfgs, c.protocol ≠ some (pyLower p)) := by
  constructor
  · intro c h
    exact getConfigLoop_some h
  · intro h
    exact getConfigLoop_none h

/-- Witness for the amended C1 at a concrete input: with two entries sharing
the protocol, the scan for the query "IMAP" returns the first one. -/
theorem get_config_first_match_witness :
    cfgImapA.protocol = some (pyLower "IMAP") ∧
    ∃ l1 l2, [cfgImapA, cfgImapB] = l1 ++ cfgImapA :: l2 ∧
      ∀ c' ∈ l1, c'.protocol ≠ some (pyLower "IMAP") :=
  (get_config_first_match [cfgImapA, cfgImapB] "IMAP").1 cfgImapA (by decide)

/-- Claim C9: the query alone is lowercased: a returned entry has its
protocol field character-for-character equal to the lowercased query, and an
entry whose protocol field contains an ASCII uppercase letter is never
returned, whatever the query (a query equal to that field included). -/
theorem get_config_query_lowered (cfgs : List ServerConfig) (p : String) (c : ServerConfig) :
    (_get_config cfgs p = some c → c.protocol = some (pyLower p)) ∧
    (∀ s, c.protocol = some s → (∃ ch ∈ s.data, isAsciiUpper ch = true) →
      _get_config cfgs p ≠ some c) := by
  constructor
  · intro h
    exact (getConfigLoop_some h).1
  · intro s hs hup h
    have hproto : c.protocol = some (pyLower p) := (getConfigLoop_some h).1
    rw [hs] at hproto
    have hsp : s = pyLower p := Option.some.inj hproto
    obtain ⟨ch, hmem, hch⟩ := hup
    rw [hsp] at hmem
    have := pyLower_no_upper p ch hmem
    rw [this] at hch
    exact absurd hch (by simp)

/-- Witness for C9 at a concrete input: the entry storing protocol "IMAP" is
not returned even for the query "IMAP" itself. -/
theorem get_config_query_lowered_witness :
    _get_config [cfgUpper] "IMAP" ≠ some cfgUpper :=
  (get_config_query_lowered [cfgUpper] "IMAP" cfgUpper).2 "IMAP" (by decide)
    ⟨'I', by decide, by decide⟩

/-- Counterexample to claim C2 as stated: a well-formed document with zero
incoming and one outgoing server element does not yield a config list of
0 + 1 entries; resolution fails, because accessing the absent incomingServer
children raises AttributeError inside the XML layer. -/
theorem resolve_zero_incoming_errors :
    providerNoIncoming.incomingServer.length = 0 ∧
    providerNoIncoming.outgoingServer.length = 1 ∧
    resolveModel (fun _ => XmlOutcome.parsed rootNoIncoming)
      { ok := true, body := "<clientConfig/>" } "example.com"
      = Except.error (ResolveErr.parseFailed PErr.attrErr) :=
  ⟨rfl, rfl, rfl⟩

/-- Claim C2 as amended: for a well-formed document with N incoming and M
outgoing server elements where N and M are at least one and every server
element parses, the config list has exactly N + M entries, the incoming ones
in document order followed by the outgoing ones in document order; when either
set of server elements is empty, parsing raises instead, so an empty configs
list is never produced. -/
theorem parse_counts (root : XmlRootElem) (cc : ClientConfigElem) (ep : EmailProviderElem)
    (inc outg : List ServerConfig)
    (hr : root.clientConfig = some cc) (hc : cc.emailProvider = some ep)
    (h1 : parseServers ep.incomingServer = Except.ok inc)
    (h2 : parseServers ep.outgoingServer = Except.ok outg)
    (hn : ep.incomingServer ≠ []) (hm : ep.outgoingServer ≠ []) :
    parse_config (XmlOutcome.parsed root) = Except.ok (ep.idAttr, inc ++ outg) ∧
    (inc ++ outg).length = ep.incomingServer.length + ep.outgoingServer.length := by
  have e1 : ep.incomingServer.isEmpty = false := isEmpty_false_of_ne_nil hn
  have e2 : ep.outgoingServer.isEmpty = false := isEmpty_false_of_ne_nil hm
  constructor
  · simp only [parse_config, hr, hc, e1, e2, Bool.or_self, Bool.false_eq_true, if_false, h1, h2]
  · rw [List.length_append, parseServers_ok_length h1, parseServers_ok_length h2]

/-- Witness for the amended C2 at a concrete input: one incoming and one
outgoing server element yield the two configs in document order. -/
theorem parse_counts_witness :
    parse_config (XmlOutcome.parsed rootOk)
      = Except.ok (some "example.com", [cfgIncoming, cfgOutgoing]) ∧
    ([cfgIncoming, cfgOutgoing] : List ServerConfig).length
      = providerOk.incomingServer.length + providerOk.outgoingServer.length :=
  parse_counts rootOk { emailProvider := some providerOk } providerOk
    [cfgIncoming] [cfgOutgoing] rfl rfl rfl rfl (by decide) (by decide)

/-- Counterexample to claim C3 as stated: on a success status whose body is
empty, construction does not proceed; resolution fails with the not-found
error, because the falsiness test on line 35 also catches the empty string. -/
theorem resolve_empty_body_notfound :
    ({ ok := true, body := "" } : HttpResponse).ok = true ∧
    resolveModel oracleOk { ok := true, body := "" } "example.com"
      = Except.error ResolveErr.notFound :=
  ⟨rfl, rfl⟩

/-- Claim C3 as amended: resolution fails with the not-found error exactly
when the endpoint answers with a non-success status (fetch returns absent
rather than raising) or when the fetched body is empty; on a success status
with a nonempty body the raw body is kept and construction proceeds to the
parse stage. -/
theorem resolve_notfound_iff (xmlOf : String → XmlOutcome) (resp : HttpResponse)
    (domain d : String) (hd : fix_url domain = some d) :
    (resolveModel xmlOf resp domain = Except.error ResolveErr.notFound ↔
      resp.ok = false ∨ resp.body = "") ∧
    (∀ cc, resolveModel xmlOf resp domain = Except.ok cc →
      resp.ok = true ∧ resp.body ≠ "" ∧ cc.xml = resp.body) := by
  cases hok : resp.ok with
  | false =>
    have hrc : request_config resp = none := by simp [request_config, hok]
    have hr : resolveModel xmlOf resp domain = Except.error ResolveErr.notFound := by
      simp [resolveModel, hd, hrc]
    constructor
    · rw [hr]
      simp [hok]
    · intro cc h
      rw [hr] at h
      exact absurd h (by simp)
  | true =>
    have hrc : request_config resp = some resp.body := by simp [request_config, hok]
    by_cases hb : resp.body = ""
    · have hr : resolveModel xmlOf resp domain = Except.error ResolveErr.notFound := by
        simp [resolveModel, hd, hrc, hb]
      constructor
      · rw [hr]
        simp [hb]
      · intro cc h
        rw [hr] at h
        exact absurd h (by simp)
    · cases hp : parse_config (xmlOf resp.body) with
      | error e =>
        have hr : resolveModel xmlOf resp domain
            = Except.error (ResolveErr.parseFailed e) := by
          simp [resolveModel, hd, hrc, if_neg hb, hp]
        constructor
        · rw [hr]
          simp [hok, hb]
        · intro cc h
          rw [hr] at h
          exact absurd h (by simp)
      | ok pr =>
        obtain ⟨pid, cfgs⟩ := pr
        have hr : resolveModel xmlOf resp domain
            = Except.ok { domain := d, xml := resp.body, emailProvider := pid,
                          configs := cfgs } := by
          simp [resolveModel, hd, hrc, if_neg hb, hp]
        constructor
        · rw [hr]
          simp [hok, hb]
        · intro cc h
          rw [hr] at h
          have hcc := Except.ok.inj h
          rw [← hcc]
          exact ⟨rfl, hb, rfl⟩

/-- Witness for the amended C3 at a concrete input: a non-success response
makes resolution fail with the not-found error. -/
theorem resolve_notfound_iff_witness :
    resolveModel oracleOk { ok := false, body := "x" } "example.com"
      = Except.error ResolveErr.notFound :=
  ((resolve_notfound_iff oracleOk { ok := false, body := "x" } "example.com"
      "example.com" rfl).1).mpr (Or.inl rfl)

/-- Counterexample to claim C4 as stated: a server element missing its type
attribute does not make resolution fail with a ParseError; resolution
succeeds and returns a fully-built ClientConfig whose first entry has an
absent protocol, because an absent XML attribute reads as Python None rather
than raising. -/
theorem parse_missing_attr_no_error :
    srvNoType.typeAttr = none ∧
    resolveModel (fun _ => XmlOutcome.parsed rootNoType)
      { ok := true, body := "<clientConfig/>" } "example.com"
      = Except.ok
          { domain := "example.com", xml := "<clientConfig/>",
            emailProvider := some "example.com",
            configs :=
              [{ protocol := none, hostname := "imap.example.com", port := 993,
                 socket_type := "ssl", authentication := "password-cleartext",
                 username := "%EMAILADDRESS%" }, cfgOutgoing] } :=
  ⟨rfl, rfl⟩

/-- Claim C4 as amended: a document that does not parse fails with the XML
parse error, and a missing expected element (the clientConfig or
emailProvider element, an empty incoming or outgoing server set, or a server
element missing one of its five expected children, or a port text that int()
rejects) makes parsing fail, with no partial result: whenever parse_config
succeeds, the provider elements were present, both server sets were nonempty,
every server element carried all five children with a numeric port, and the
returned list covers every server element.  (Missing attributes, by contrast,
do not fail; see the counterexample.) -/
theorem parse_error_behavior :
    parse_config XmlOutcome.malformed = Except.error PErr.saxParseErr ∧
    (∀ root pid cfgs, parse_config (XmlOutcome.parsed root) = Except.ok (pid, cfgs) →
      ∃ cc ep, root.clientConfig = some cc ∧ cc.emailProvider = some ep ∧
        pid = ep.idAttr ∧ ep.incomingServer ≠ [] ∧ ep.outgoingServer ≠ [] ∧
        cfgs.length = ep.incomingServer.length + ep.outgoingServer.length ∧
        ∀ e ∈ ep.incomingServer ++ ep.outgoingServer,
          e.hostname ≠ none ∧ e.socketType ≠ none ∧ e.authentication ≠ none ∧
          e.username ≠ none ∧ ∃ ps, e.port = some ps ∧ pyInt ps ≠ none) := by
  constructor
  · rfl
  · intro root pid cfgs h
    simp only [parse_config] at h
    split at h
    · exact absurd h (by simp)
    · rename_i cc hcc
      split at h
      · exact absurd h (by simp)
      · rename_i ep hep
        split at h
        · exact absurd h (by simp)
        · rename_i hempty
          split at h
          · exact absurd h (by simp)
          · rename_i inc hinc
            split at h
            · exact absurd h (by simp)
            · rename_i outg houtg
              simp only [Except.ok.injEq, Prod.mk.injEq] at h
              obtain ⟨hpid, hcfgs⟩ := h
              have hbool : ep.incomingServer.isEmpty = false ∧
                  ep.outgoingServer.isEmpty = false := by
                cases hI : ep.incomingServer.isEmpty <;>
                  cases hO : ep.outgoingServer.isEmpty <;>
                  simp [hI, hO] at hempty ⊢
              refine ⟨cc, ep, hcc, hep, hpid.symm, ne_nil_of_isEmpty_false hbool.1,
                ne_nil_of_isEmpty_false hbool.2, ?_, ?_⟩
              · rw [← hcfgs, List.length_append, parseServers_ok_length hinc,
                  parseServers_ok_length houtg]
              · intro e he
                rcases List.mem_append.mp he with h1 | h2
                · obtain ⟨c, hcok⟩ := parseServers_ok_all hinc e h1
                  exact parseServer_ok_fields hcok
                · obtain ⟨c, hcok⟩ := parseServers_ok_all houtg e h2
                  exact parseServer_ok_fields hcok

/-- Witness for the amended C4 at a concrete input: the well-formed document
parses, and the conclusion holds of it. -/
theorem parse_error_behavior_witness :
    ∃ cc ep, rootOk.clientConfig = some cc ∧ cc.emailProvider = some ep ∧
      (some "example.com" : Option String) = ep.idAttr ∧
      ep.incomingServer ≠ [] ∧ ep.outgoingServer ≠ [] ∧
      ([cfgIncoming, cfgOutgoing] : List ServerConfig).length
        = ep.incomingServer.length + ep.outgoingServer.length ∧
      ∀ e ∈ ep.incomingServer ++ ep.outgoingServer,
        e.hostname ≠ none ∧ e.socketType ≠ none ∧ e.authentication ≠ none ∧
        e.username ≠ none ∧ ∃ ps, e.port = some ps ∧ pyInt ps ≠ none :=
  parse_error_behavior.2 rootOk (some "example.com") [cfgIncoming, cfgOutgoing] rfl

/-- Claim C7: the request URL is the versioned database root joined with the
normalized domain as the final path segment. -/
theorem config_url_spec (d : String) :
    config_url d = "https://autoconfig.thunderbird.net/v1.1/" ++ d := rfl

/-- Claim C8: when resolution succeeds, get_configs returns the resolved
config list itself, unfiltered and in the same order. -/
theorem get_configs_unfiltered (xmlOf : String → XmlOutcome) (resp : HttpResponse)
    (domain : String) (cc : ClientConfig)
    (h : resolveModel xmlOf resp domain = Except.ok cc) :
    get_configs xmlOf resp domain = Except.ok cc.configs := by
  unfold get_configs
  rw [h]
  rfl

/-- Witness for C8 at a concrete input: the full two-element list comes back
in document order. -/
theorem get_configs_unfiltered_witness :
    get_configs oracleOk { ok := true, body := "<clientConfig/>" } "example.com"
      = Except.ok [cfgIncoming, cfgOutgoing] :=
  get_configs_unfiltered oracleOk { ok := true, body := "<clientConfig/>" } "example.com"
    { domain := "example.com", xml := "<clientConfig/>",
      emailProvider := some "example.com", configs := [cfgIncoming, cfgOutgoing] } rfl
